import Mathlib

/-!
Verification of the Deta Base client's item-normalization, update-encoding,
batch-put and pagination layer (src/base.go) against its specification.

JSON-compatible values are embedded as the inductive `JVal`; a Go
`map[string]interface{}` (the `baseItem` type) is embedded as an association
list with distinct keys, which is how `encoding/json` materialises an object.
Go errors are embedded as an explicit `DErr` sum; a Go runtime panic
(nil-pointer dereference, failed type assertion, out-of-range index) is
embedded as the distinguished `DErr.panicked` outcome so that totality claims
can be stated.
-/

/-- A JSON-compatible value, the shape `encoding/json` round-trips
`interface{}` values through. Numbers are embedded as integers (the claims
under verification never depend on fractional values). -/
inductive JVal where
  | null : JVal
  | bool : Bool → JVal
  | num : Int → JVal
  | str : String → JVal
  | arr : List JVal → JVal
  | obj : List (String × JVal) → JVal
deriving Repr, BEq

/-- `true` exactly on JSON strings (the dynamic `case string` test of
`removeEmptyKey`'s type switch). -/
def JVal.isStr : JVal → Bool
  | .str _ => true
  | _ => false

/-- `true` exactly on JSON objects. -/
def JVal.isObj : JVal → Bool
  | .obj _ => true
  | _ => false

/-- `baseItem`: items are always stored as a map of string to value
(src/base.go line 33). -/
def baseItem := List (String × JVal)

instance : Repr baseItem := inferInstanceAs (Repr (List (String × JVal)))

/-- The error taxonomy of the layer: `ErrBadItem`, `ErrTooManyItems`,
`ErrBadDestination` (src/base.go lines 11-18), transport failures from the
HTTP collaborator, and a distinguished outcome for Go runtime panics. The
string carries the wrapped detail message where the source attaches one. -/
inductive DErr where
  | badItem : String → DErr
  | tooManyItems : DErr
  | badDestination : String → DErr
  | transport : String → DErr
  | panicked : String → DErr
deriving Repr, DecidableEq

/-- `true` exactly on the `badItem` error kind. -/
def DErr.isBadItem : DErr → Bool
  | .badItem _ => true
  | _ => false

/-- `true` exactly on the `panicked` outcome. -/
def DErr.isPanicked : DErr → Bool
  | .panicked _ => true
  | _ => false

/-- Key lookup in an item, the embedding of the Go map read
`bi["key"]` with its `ok` flag. -/
def baseItem.lookup (bi : baseItem) (k : String) : Option JVal :=
  List.lookup k bi

/-- Deletion of a field from an item, the embedding of the Go
`delete(bi, "key")`. -/
def baseItem.erase (bi : baseItem) (k : String) : baseItem :=
  List.filter (fun p => p.1 ≠ k) bi

/-- `removeEmptyKey` (src/base.go lines 58-72): if no `key` field exists the
item is left untouched; a string-valued `key` equal to `""` is deleted and a
non-empty string `key` kept; any non-string `key` fails with
`ErrBadItem: Key is not a string`. -/
def removeEmptyKey (bi : baseItem) : Except DErr baseItem :=
  match bi.lookup "key" with
  | none => .ok bi
  | some (.str s) => if s = "" then .ok (bi.erase "key") else .ok bi
  | some _ => .error (.badItem "Key is not a string")

/-- The structural conversion performed by `json.Marshal` followed by
`json.Unmarshal` into a `baseItem` map: a JSON object becomes the map, JSON
null leaves the map `nil` with no error (documented `encoding/json`
behaviour), and every other JSON shape fails to unmarshal into a map, which
`modifyItem`/`modifyItems` wrap as `ErrBadItem`. -/
def jsonToBaseItem : JVal → Except DErr baseItem
  | .obj fs => .ok fs
  | .null => .ok []
  | _ => .error (.badItem "json: cannot unmarshal value into Go value of type deta.baseItem")

/-- `modifyItem` (src/base.go lines 74-89): structurally convert the caller
value into a `baseItem`, then apply `removeEmptyKey`. The input is taken
already in its JSON-value form (marshalling a JSON-compatible value never
fails). -/
def modifyItem (item : JVal) : Except DErr baseItem := do
  let bi ← jsonToBaseItem item
  removeEmptyKey bi

/-- `modifyItems` (src/base.go lines 92-109): structurally convert every
element of the caller slice (a single `json.Unmarshal` into `[]baseItem`,
which fails on the first non-object, non-null element), then run
`removeEmptyKey` over each element, aborting on the first failure. -/
def modifyItems (items : List JVal) : Except DErr (List baseItem) := do
  let bis ← items.mapM jsonToBaseItem
  bis.mapM removeEmptyKey

/-! ## Update-operation encoder -/

/-- Modelled from the spec: the tagged operation markers produced by the util
component (`*trimUtil`, `*appendUtil`, `*prependUtil`, `*incrementUtil`),
whose defining file is absent from src/. `updatesToUpdateRequest`
(src/base.go lines 242-264) distinguishes them by a dynamic type switch; the
shallow embedding makes the tag an explicit sum, with `plain` standing for
every untagged `interface{}` value (the `default` branch of the switch). -/
inductive UpdateValue where
  | plain : JVal → UpdateValue
  | trimOp : UpdateValue
  | appendOp : JVal → UpdateValue
  | prependOp : JVal → UpdateValue
  | incrementOp : JVal → UpdateValue
deriving Repr

/-- `Updates` (src/base.go line 39): a map from field name to plain or tagged
value; embedded as an association list with distinct keys (a Go map). -/
abbrev Updates := List (String × UpdateValue)

/-- `updateRequest` (src/base.go lines 233-239). The four maps are embedded
as association lists; `Set`, `Append`, `Prepend` and `Increment` are
initialised non-nil with `make` and therefore always marshal as JSON
objects, while `Trim` starts as a nil slice and marshals as JSON null unless
at least one name was appended. -/
structure updateRequest where
  set : List (String × JVal)
  trim : List String
  append : List (String × JVal)
  prepend : List (String × JVal)
  increment : List (String × JVal)
deriving Repr

/-- One iteration of the type switch in `updatesToUpdateRequest`
(src/base.go lines 249-262): route the entry into the single bucket its tag
selects, untagged values into `set`. -/
def updateStep (r : updateRequest) (kv : String × UpdateValue) : updateRequest :=
  match kv.2 with
  | .trimOp => { r with trim := r.trim ++ [kv.1] }
  | .appendOp v => { r with append := r.append ++ [(kv.1, v)] }
  | .prependOp v => { r with prepend := r.prepend ++ [(kv.1, v)] }
  | .incrementOp v => { r with increment := r.increment ++ [(kv.1, v)] }
  | .plain v => { r with set := r.set ++ [(kv.1, v)] }

/-- `updatesToUpdateRequest` (src/base.go lines 242-264): fold the entries of
the update map through the type switch, starting from the empty request whose
four maps are `make`-initialised and whose trim slice is nil. -/
def updatesToUpdateRequest (updates : Updates) : updateRequest :=
  updates.foldl updateStep
    { set := [], trim := [], append := [], prepend := [], increment := [] }

/-- JSON serialization of an `updateRequest` as `encoding/json` performs it
on the Go struct: fields in declaration order, the `make`-initialised maps as
(possibly empty) objects, and the `Trim` slice as null when still nil (no
trim operation was encountered) and as an array otherwise. -/
def updateRequestToJson (r : updateRequest) : JVal :=
  .obj [("set", .obj r.set),
        ("trim", if r.trim.isEmpty then .null else .arr (r.trim.map JVal.str)),
        ("append", .obj r.append),
        ("prepend", .obj r.prepend),
        ("increment", .obj r.increment)]

/-- The field names of an encoded request, listed bucket by bucket: the keys
of `set`, the `trim` names, and the keys of `append`, `prepend` and
`increment`. A name appearing exactly once in this list appears in exactly
one bucket. -/
def bucketNames (r : updateRequest) : List String :=
  r.set.map Prod.fst ++ r.trim ++ r.append.map Prod.fst ++
    r.prepend.map Prod.fst ++ r.increment.map Prod.fst

/-! ## Bulk-put orchestrator -/

/-- `putResponse` (src/base.go lines 111-114): the service partitions the
batch into `processed` and `failed`, each a map from the endpoint name
(`"items"`) to a list of items. -/
structure putResponse where
  processed : List (String × List baseItem)
  failed : List (String × List baseItem)

/-- The processed partition of a put response under the `"items"` endpoint
name, the zero value (an empty list) when the entry is absent. -/
def procItems (resp : putResponse) : List baseItem :=
  (List.lookup "items" resp.processed).getD []

/-- The transport collaborator for the PUT `/items` operation: given the
request body's item list it yields either the decoded `putResponse` or an
error (a transport failure, or a response body that fails to unmarshal). -/
def PutTransport := List baseItem → Except DErr putResponse

/-- Extraction of the `key` field from every processed item, the embedding of
the loop `for _, item := range pr.Processed["items"] { keys =
append(keys, item["key"].(string)) }` (src/base.go lines 135-138). The
unchecked type assertion `item["key"].(string)` panics when the field is
absent (a nil interface) or not a string; `none` marks that panic. -/
def extractKeys : List baseItem → Option (List String)
  | [] => some []
  | bi :: rest =>
    match bi.lookup "key" with
    | some (.str s) => (extractKeys rest).map (s :: ·)
    | _ => none

/-- `put` (src/base.go lines 116-141): issue one PUT `/items` request with
the item list as body, decode the response, and collect the processed keys.
The second component counts the requests issued by the call (always one).
A failed key assertion surfaces as the `panicked` outcome. The
`Processed["items"]` read on a map without that entry yields the zero value,
an empty list. -/
def put (tr : PutTransport) (items : List baseItem) :
    Except DErr (List String) × Nat :=
  match tr items with
  | .error e => (.error e, 1)
  | .ok pr =>
    match extractKeys (procItems pr) with
    | none => (.error (.panicked "interface conversion: interface \x7b\x7d is not string"), 1)
    | some keys => (.ok keys, 1)

/-- `Put` (src/base.go lines 147-163): a nil input item (`none`) returns the
empty key and no error without touching the transport; otherwise the single
item is normalized as the slice `[item]`, written with `put`, and the first
returned key is the result. `putKeys[0]` on an empty key list is an
out-of-range index and panics. The second component counts requests. -/
def Put (tr : PutTransport) (item : Option JVal) : Except DErr String × Nat :=
  match item with
  | none => (.ok "", 0)
  | some v =>
    match modifyItems [v] with
    | .error e => (.error e, 0)
    | .ok mis =>
      match put tr mis with
      | (.error e, n) => (.error e, n)
      | (.ok keys, n) =>
        match keys with
        | [] => (.error (.panicked "runtime error: index out of range [0]"), n)
        | k :: _ => (.ok k, n)

/-- `PutMany` (src/base.go lines 167-180): normalize the whole slice, return
no-op success on zero items (Go returns a nil slice and nil error, embedded
as the empty list), fail with `ErrTooManyItems` on more than 25 items before
any request is issued, and otherwise issue the single `put` request. The
second component counts requests. -/
def PutMany (tr : PutTransport) (items : List JVal) :
    Except DErr (List String) × Nat :=
  match modifyItems items with
  | .error e => (.error e, 0)
  | .ok mis =>
    if mis.length = 0 then (.ok [], 0)
    else if mis.length > 25 then (.error .tooManyItems, 0)
    else put tr mis

/-! ## Query / pagination driver -/

/-- `Query` (src/base.go line 36): a slice of filter-group maps. A nil query
and an empty query are both embedded as the empty list (they differ only in
the marshalled bytes, which the claims never inspect). -/
abbrev Query := List (List (String × JVal))

/-- `paging` (src/base.go lines 298-301): the page size and the optional
last key; `Last` is a string pointer, absent (`nil`) when the service
reports no further page. -/
structure paging where
  size : Int
  last : Option String

/-- `fetchRequest` (src/base.go lines 303-307): the query, the optional
cursor `last`, and the optional `limit` (both omitted from the wire body when
nil). -/
structure fetchRequest where
  query : Query
  last : Option String
  limit : Option Int

/-- `fetchResponse` (src/base.go lines 309-312): `Paging` is a pointer field
and stays `nil` (`none`) when the response body carries no `paging` object;
the raw items come back as a list of arbitrary JSON values. -/
structure fetchResponse where
  paging : Option paging
  items : List JVal

/-- The transport collaborator for the POST `/query` operation: given the
wire request it yields either the decoded `fetchResponse` or an error. -/
def FetchTransport := fetchRequest → Except DErr fetchResponse

/-- The cursor-extraction tail of `Fetch` (src/base.go lines 349-362): after
decoding the raw items into the destination (the identity for a `List JVal`
destination, so the `ErrBadDestination` branch cannot fire here), read
`res.Paging.Last`. When `res.Paging` is `nil` this dereference is a nil
pointer dereference and panics; otherwise the cursor is the pointed-to string
when present and the empty string when absent. -/
def fetchDecode (res : fetchResponse) : Except DErr (List JVal × String) :=
  match res.paging with
  | none => .error (.panicked "runtime error: invalid memory address or nil pointer dereference")
  | some p =>
    match p.last with
    | none => .ok (res.items, "")
    | some s => .ok (res.items, s)

/-- `Fetch` (src/base.go lines 336-363): build the wire request from the
query, include the limit only when positive, never set `last` (the public
signature has no cursor parameter), issue exactly one POST `/query` request,
decode the items into the destination and extract the cursor. The second
component counts requests. -/
def Fetch (tr : FetchTransport) (query : Query) (limit : Int) :
    Except DErr (List JVal × String) × Nat :=
  let req : fetchRequest :=
    { query := query, last := none,
      limit := if limit > 0 then some limit else none }
  match tr req with
  | .error e => (.error e, 1)
  | .ok res => (fetchDecode res, 1)

/-- Modelled from the spec: the caller-side follow-up call of the pagination
protocol ("the caller is responsible for repeating the call with the
returned cursor until the cursor is empty"). The public `Fetch` never fills
the `last` field of `fetchRequest`, so the follow-up is embedded as the same
single-request pipeline with the previously returned cursor placed in
`last`, exactly as the spec's wire shape `\x7b"query":…,"last":string?,
"limit":int?\x7d` describes. -/
def fetchWithLast (tr : FetchTransport) (query : Query) (limit : Int)
    (lastCursor : String) : Except DErr (List JVal × String) × Nat :=
  let req : fetchRequest :=
    { query := query, last := some lastCursor,
      limit := if limit > 0 then some limit else none }
  match tr req with
  | .error e => (.error e, 1)
  | .ok res => (fetchDecode res, 1)

/-- Modelled from the spec: the remote Base service's pagination behaviour
over a fixed stored collection, as §6 describes the query wire shapes — the
page starts after the item whose key equals `last` (from the start when
`last` is absent), contains at most `limit` items (all remaining items when
`limit` is absent), and the paging metadata's `last` key is present exactly
when items remain beyond the returned page, carrying the key of the last
returned item. -/
def modelService (stored : List (String × JVal)) (req : fetchRequest) :
    fetchResponse :=
  let start : Nat :=
    match req.last with
    | none => 0
    | some c =>
      match stored.findIdx? (fun p => p.1 == c) with
      | some i => i + 1
      | none => 0
  let rest := stored.drop start
  let page :=
    match req.limit with
    | some l => rest.take l.toNat
    | none => rest
  let lastKey : Option String :=
    if page.length < rest.length then (page.getLast?).map Prod.fst else none
  { paging := some { size := page.length, last := lastKey },
    items := page.map Prod.snd }


/-- A transport whose response reports one processed item carrying the key
`"abc123"`. -/
def trPutGood : PutTransport := fun _ =>
  .ok { processed := [("items", [[("key", JVal.str "abc123"), ("name", JVal.str "a")]])],
        failed := [] }

/-- A transport that always fails. -/
def trPutBoom : PutTransport := fun _ => .error (.transport "boom")

/-- `true` when a caller value would pass `modifyItem`'s normalization:
JSON objects whose `key` field, if any, is a string, and JSON null (which
`json.Unmarshal` turns into a nil map without error). -/
def normalizes (v : JVal) : Bool :=
  match v with
  | .null => true
  | .obj fs =>
    match baseItem.lookup fs "key" with
    | none => true
    | some (.str _) => true
    | some _ => false
  | _ => false

/-- `true` when the item carries a string-valued `key` field, so that the
type assertion `item["key"].(string)` succeeds. -/
def hasStringKey (bi : baseItem) : Bool :=
  match bi.lookup "key" with
  | some (.str _) => true
  | _ => false

/-- `true` exactly when an operation's outcome is a Go panic. -/
def isPanicOutcome {α : Type} : Except DErr α → Bool
  | .error e => e.isPanicked
  | .ok _ => false

/-- A put response whose processed partition holds one item with a string
key followed by one item with a numeric key. -/
def respMixedKeys : putResponse :=
  { processed := [("items", [[("key", JVal.str "a")], [("key", JVal.num 1)]])],
    failed := [] }

/-- A transport that always answers with `respMixedKeys`. -/
def trMixedKeys : PutTransport := fun _ => .ok respMixedKeys

/-- A transport whose response's processed partition is empty (for example
because the single submitted item landed in the failed partition). -/
def trEmptyProc : PutTransport := fun _ =>
  .ok { processed := [("items", [])],
        failed := [("items", [[("key", JVal.str "a")]])] }

/-- A query response whose paging metadata is present but whose last-key is
the empty string. -/
def respEmptyLast : fetchResponse :=
  { paging := some { size := 0, last := some "" }, items := [] }

/-- A query transport that always answers with `respEmptyLast`. -/
def trEmptyLast : FetchTransport := fun _ => .ok respEmptyLast

/-- A query transport whose response body decodes without a paging object,
leaving the paging pointer nil. -/
def trNoPaging : FetchTransport := fun _ =>
  .ok { paging := none, items := [JVal.obj [("key", JVal.str "x")]] }

/-- A query transport whose response carries a paging object with an absent
last-key. -/
def trWithPaging : FetchTransport := fun _ =>
  .ok { paging := some { size := 1, last := none },
        items := [JVal.obj [("key", JVal.str "x")]] }

/-- A stored collection of 15 items with keys `k1` … `k15`, each item being
the object `\x7b"key": "kN"\x7d`. -/
def stored15 : List (String × JVal) :=
  (List.range 15).map fun i =>
    ("k" ++ toString (i + 1), JVal.obj [("key", JVal.str ("k" ++ toString (i + 1)))])

/-- The query transport backed by the model service over `stored15`. -/
def baseTr15 : FetchTransport := fun req => .ok (modelService stored15 req)

/-- The wire request `Fetch` builds for a query and a limit: no cursor, the
limit included only when positive (src/base.go lines 337-342). -/
def fetchReqOf (q : Query) (l : Int) : fetchRequest :=
  { query := q, last := none, limit := if l > 0 then some l else none }

/-! ## Helper lemmas -/

/-- Bind on a failed `Except` computation propagates the error. -/
theorem except_bind_err {α β : Type} (e : DErr) (f : α → Except DErr β) :
    (bind (Except.error e) f : Except DErr β) = Except.error e := rfl

/-- Bind on a successful `Except` computation applies the continuation. -/
theorem except_bind_ok {α β : Type} (a : α) (f : α → Except DErr β) :
    (bind (Except.ok a) f : Except DErr β) = f a := rfl

/-- `pure` in the `Except` monad is `Except.ok`. -/
theorem except_pure {α : Type} (a : α) :
    (pure a : Except DErr α) = Except.ok a := rfl

/-- Erasing a field removes every binding of that name. -/
theorem baseItem.lookup_erase (bi : baseItem) (k : String) :
    (bi.erase k).lookup k = none := by
  rw [show (bi.erase k).lookup k = List.lookup k (bi.erase k) from rfl,
    List.lookup_eq_none_iff]
  intro p hp
  have h2 := (List.mem_filter.mp hp).2
  simp only [decide_eq_true_eq] at h2
  simp only [bne_iff_ne, ne_eq]
  exact fun he => h2 he.symm

/-- Unfolding `modifyItem` on an object input: the structural conversion is
the identity and only `removeEmptyKey` remains. -/
theorem modifyItem_obj (fs : List (String × JVal)) :
    modifyItem (.obj fs) = removeEmptyKey fs := rfl

/-- A successful `mapM` over `Except` succeeds pointwise on every element,
the image appearing in the result list. -/
theorem mapM_ok_forall {α β : Type} (f : α → Except DErr β) :
    ∀ (l : List α) (bs : List β), l.mapM f = .ok bs → ∀ a ∈ l, ∃ b ∈ bs, f a = .ok b := by
  intro l
  induction l with
  | nil => intro bs _ a ha; cases ha
  | cons x rest ih =>
    intro bs h a ha
    rw [List.mapM_cons] at h
    cases hx : f x with
    | error e => rw [hx, except_bind_err] at h; cases h
    | ok b =>
      rw [hx, except_bind_ok] at h
      cases hrest : rest.mapM f with
      | error e => rw [hrest, except_bind_err] at h; cases h
      | ok bs' =>
        rw [hrest, except_bind_ok, except_pure] at h
        cases h
        cases ha with
        | head => exact ⟨b, List.mem_cons_self _ _, hx⟩
        | tail _ hmem =>
          obtain ⟨b', hbmem, hfb⟩ := ih bs' hrest a hmem
          exact ⟨b', List.mem_cons_of_mem _ hbmem, hfb⟩

/-- A successful `mapM` over `Except` preserves the length of the list. -/
theorem mapM_ok_length {α β : Type} (f : α → Except DErr β) :
    ∀ (l : List α) (bs : List β), l.mapM f = .ok bs → bs.length = l.length := by
  intro l
  induction l with
  | nil => intro bs h; rw [List.mapM_nil, except_pure] at h; cases h; rfl
  | cons x rest ih =>
    intro bs h
    rw [List.mapM_cons] at h
    cases hx : f x with
    | error e => rw [hx, except_bind_err] at h; cases h
    | ok b =>
      rw [hx, except_bind_ok] at h
      cases hrest : rest.mapM f with
      | error e => rw [hrest, except_bind_err] at h; cases h
      | ok bs' =>
        rw [hrest, except_bind_ok, except_pure] at h
        cases h
        simp [ih bs' hrest]

/-- A successful `modifyItems` yields exactly as many normalized items as
there were inputs. -/
theorem modifyItems_ok_length (items : List JVal) (mis : List baseItem)
    (h : modifyItems items = .ok mis) : mis.length = items.length := by
  unfold modifyItems at h
  cases h1 : items.mapM jsonToBaseItem with
  | error e => rw [h1, except_bind_err] at h; cases h
  | ok bis =>
    rw [h1, except_bind_ok] at h
    have hl1 := mapM_ok_length removeEmptyKey bis mis h
    have hl2 := mapM_ok_length jsonToBaseItem items bis h1
    omega

/-! ## C1: key sanitization during normalization -/

/-- C1: for every caller value normalized into an item (`modifyItem`, the
normalization used by Put/PutMany/Insert): an item with an empty-string
`key` has the `key` field removed; a non-empty string `key` is preserved
unchanged; a non-string `key` fails with `ErrBadItem` ("Key is not a
string") and no item is produced. -/
theorem c1_key_sanitization (fs : List (String × JVal)) :
    (baseItem.lookup fs "key" = some (.str "") →
      modifyItem (.obj fs) = .ok (baseItem.erase fs "key") ∧
      baseItem.lookup (baseItem.erase fs "key") "key" = none) ∧
    (∀ s, s ≠ "" → baseItem.lookup fs "key" = some (.str s) →
      modifyItem (.obj fs) = .ok fs) ∧
    (∀ v, baseItem.lookup fs "key" = some v → v.isStr = false →
      modifyItem (.obj fs) = .error (.badItem "Key is not a string")) := by
  refine ⟨fun h => ?_, fun s hs h => ?_, fun v h hv => ?_⟩
  · rw [modifyItem_obj, removeEmptyKey, h]
    exact ⟨rfl, baseItem.lookup_erase fs "key"⟩
  · rw [modifyItem_obj, removeEmptyKey, h]
    simp [hs]
  · rw [modifyItem_obj, removeEmptyKey, h]
    cases v with
    | str s => cases hv
    | null => rfl
    | bool b => rfl
    | num n => rfl
    | arr xs => rfl
    | obj fs2 => rfl

/-- Witness for C1 at concrete items: `{"key":"","name":"a"}` loses its key,
`{"key":"k1"}` keeps it, `{"key":1}` is rejected. -/
theorem c1_key_sanitization_witness :
    (modifyItem (.obj [("key", .str ""), ("name", .str "a")]) =
        .ok (baseItem.erase [("key", .str ""), ("name", .str "a")] "key") ∧
      baseItem.lookup
        (baseItem.erase [("key", .str ""), ("name", .str "a")] "key") "key" = none) ∧
    modifyItem (.obj [("key", .str "k1")]) = .ok [("key", .str "k1")] ∧
    modifyItem (.obj [("key", .num 1)]) =
      .error (.badItem "Key is not a string") := by
  refine ⟨(c1_key_sanitization _).1 rfl,
    (c1_key_sanitization _).2.1 "k1" (by decide) rfl,
    (c1_key_sanitization _).2.2 (.num 1) rfl rfl⟩

/-! ## C2: update encoding partitions the field names -/

/-- One step of the encoder permutes the bucketed names by adding the new
entry's field name. -/
theorem bucketNames_updateStep (r : updateRequest) (kv : String × UpdateValue) :
    List.Perm (bucketNames (updateStep r kv)) (bucketNames r ++ [kv.1]) := by
  obtain ⟨k, v⟩ := kv
  rw [List.perm_iff_count]
  intro a
  cases v <;> by_cases h : a = k <;>
    simp [bucketNames, updateStep, List.count_append, List.count_cons, h] <;>
    omega

/-- Folding the encoder over the update entries permutes the bucketed names
by appending all entry names. -/
theorem bucketNames_foldl (u : Updates) : ∀ r : updateRequest,
    List.Perm (bucketNames (u.foldl updateStep r))
      (bucketNames r ++ u.map Prod.fst) := by
  induction u with
  | nil => intro r; simp
  | cons kv rest ih =>
    intro r
    have h1 : List.Perm (bucketNames ((kv :: rest).foldl updateStep r))
        (bucketNames (updateStep r kv) ++ rest.map Prod.fst) := ih _
    have h2 : List.Perm (bucketNames (updateStep r kv) ++ rest.map Prod.fst)
        ((bucketNames r ++ [kv.1]) ++ rest.map Prod.fst) :=
      (bucketNames_updateStep r kv).append_right _
    refine (h1.trans h2).trans ?_
    simp

/-- An entry already in the `set` bucket, or tagged `plain` among the
remaining updates, ends up in the `set` bucket of the fold. -/
theorem mem_set_foldl (k : String) (v : JVal) : ∀ (u : Updates) (r : updateRequest),
    ((k, v) ∈ r.set ∨ (k, UpdateValue.plain v) ∈ u) →
    (k, v) ∈ (u.foldl updateStep r).set := by
  intro u
  induction u with
  | nil =>
    intro r h
    cases h with
    | inl h => exact h
    | inr h => cases h
  | cons kv rest ih =>
    intro r h
    rw [List.foldl_cons]
    apply ih
    obtain ⟨k2, v2⟩ := kv
    cases h with
    | inl h =>
      left
      cases v2 <;> simp [updateStep, h]
    | inr h =>
      cases h with
      | head =>
        left
        simp [updateStep]
      | tail _ hmem => right; exact hmem

/-- C2: every field of an update set appears in exactly one of the five
buckets of the encoded request, the bucketed names taken together are
exactly the input field names, and untagged (`plain`) entries always land in
the `set` bucket. -/
theorem c2_update_buckets (u : Updates) :
    List.Perm (bucketNames (updatesToUpdateRequest u)) (u.map Prod.fst) ∧
    ((u.map Prod.fst).Nodup → ∀ k ∈ u.map Prod.fst,
      (bucketNames (updatesToUpdateRequest u)).count k = 1) ∧
    (∀ k v, (k, UpdateValue.plain v) ∈ u →
      (k, v) ∈ (updatesToUpdateRequest u).set) := by
  have hperm : List.Perm (bucketNames (updatesToUpdateRequest u)) (u.map Prod.fst) := by
    have := bucketNames_foldl u
      { set := [], trim := [], append := [], prepend := [], increment := [] }
    simpa [updatesToUpdateRequest, bucketNames] using this
  refine ⟨hperm, fun hnd k hk => ?_, fun k v hmem => ?_⟩
  · rw [hperm.count_eq]
    exact List.count_eq_one_of_mem hnd hk
  · exact mem_set_foldl k v u _ (Or.inr hmem)

/-- Witness for C2 at the concrete update set
`{"a": plain 1, "b": trim}`: the names partition into the buckets and the
ordinary value lands in `set`. -/
theorem c2_update_buckets_witness :
    List.Perm
      (bucketNames (updatesToUpdateRequest
        [("a", UpdateValue.plain (.num 1)), ("b", UpdateValue.trimOp)]))
      ["a", "b"] ∧
    (bucketNames (updatesToUpdateRequest
        [("a", UpdateValue.plain (.num 1)), ("b", UpdateValue.trimOp)])).count "a" = 1 ∧
    ("a", JVal.num 1) ∈ (updatesToUpdateRequest
        [("a", UpdateValue.plain (.num 1)), ("b", UpdateValue.trimOp)]).set := by
  refine ⟨(c2_update_buckets _).1, ?_, ?_⟩
  · exact (c2_update_buckets _).2.1 (by decide) "a" (by decide)
  · exact (c2_update_buckets _).2.2 "a" (.num 1) (List.mem_cons_self _ _)

/-! ## C8: concrete update-request encoding -/

/-- C8: encoding `\x7b"count": increment(1), "tag": trim()\x7d` yields exactly
the wire request `\x7b"set":\x7b\x7d,"trim":["tag"],"append":\x7b\x7d,
"prepend":\x7b\x7d,"increment":\x7b"count":1\x7d\x7d`; the unused `set`,
`append` and `prepend` buckets serialize as empty objects, not as null or
absent fields. -/
theorem c8_concrete_update_encoding :
    updateRequestToJson (updatesToUpdateRequest
      [("count", UpdateValue.incrementOp (.num 1)), ("tag", UpdateValue.trimOp)]) =
    .obj [("set", .obj []),
          ("trim", .arr [.str "tag"]),
          ("append", .obj []),
          ("prepend", .obj []),
          ("increment", .obj [("count", .num 1)])] := rfl

/-! ## C3: PutMany batch-size enforcement -/

/-- `put` always issues exactly one request, whatever the transport does. -/
theorem put_requests (tr : PutTransport) (items : List baseItem) :
    (put tr items).2 = 1 := by
  unfold put
  split
  · rfl
  · split <;> rfl

/-- C3: `PutMany` with zero items is a no-op success issuing no request;
with more than 25 (normalizable) items it fails with `ErrTooManyItems`
before any request is issued; with exactly 25 it issues exactly one write
request. -/
theorem c3_putmany_batch_size (tr : PutTransport) :
    PutMany tr [] = (.ok [], 0) ∧
    (∀ (items : List JVal) (mis : List baseItem), modifyItems items = .ok mis →
      25 < items.length → PutMany tr items = (.error .tooManyItems, 0)) ∧
    (∀ (items : List JVal) (mis : List baseItem), modifyItems items = .ok mis →
      items.length = 25 → (PutMany tr items).2 = 1) := by
  refine ⟨rfl, fun items mis hmod hlen => ?_, fun items mis hmod hlen => ?_⟩
  · have hl := modifyItems_ok_length items mis hmod
    unfold PutMany
    rw [hmod]
    have h0 : ¬ mis.length = 0 := by omega
    have h25 : mis.length > 25 := by omega
    simp [h0, h25]
  · have hl := modifyItems_ok_length items mis hmod
    unfold PutMany
    rw [hmod]
    have h0 : ¬ mis.length = 0 := by omega
    have h25 : ¬ mis.length > 25 := by omega
    simp [h0, h25, put_requests]

/-- Witness for C3 at concrete inputs: 26 empty objects are rejected with
`ErrTooManyItems` and no request, 25 empty objects issue exactly one
request. -/
theorem c3_putmany_batch_size_witness :
    PutMany (fun _ => .error (.transport "unreachable")) [] = (.ok [], 0) ∧
    PutMany (fun _ => .error (.transport "unreachable"))
      (List.replicate 26 (JVal.obj [])) = (.error .tooManyItems, 0) ∧
    (PutMany (fun _ => .error (.transport "unreachable"))
      (List.replicate 25 (JVal.obj []))).2 = 1 := by
  refine ⟨(c3_putmany_batch_size _).1, ?_, ?_⟩
  · exact (c3_putmany_batch_size _).2.1 _ (List.replicate 26 ([] : baseItem))
      (by rfl) (by simp)
  · exact (c3_putmany_batch_size _).2.2 _ (List.replicate 25 ([] : baseItem))
      (by rfl) (by simp)

/-! ## C6: Put is the single-item batch put -/

/-- C6: `Put` on a nil input returns the empty key and no error without
issuing any request; on a non-nil input it behaves as `PutMany` restricted
to the one-item slice, returning that single item's key and propagating the
same errors with the same number of requests. -/
theorem c6_put_single (tr : PutTransport) :
    Put tr none = (.ok "", 0) ∧
    (∀ (v : JVal) (k : String) (ks : List String) (n : Nat),
      PutMany tr [v] = (.ok (k :: ks), n) → Put tr (some v) = (.ok k, n)) ∧
    (∀ (v : JVal) (e : DErr) (n : Nat),
      PutMany tr [v] = (.error e, n) → Put tr (some v) = (.error e, n)) := by
  refine ⟨rfl, fun v k ks n h => ?_, fun v e n h => ?_⟩
  · unfold PutMany at h
    cases hmod : modifyItems [v] with
    | error e0 => simp only [hmod] at h; simp at h
    | ok mis =>
      have hl := modifyItems_ok_length [v] mis hmod
      simp only [List.length_singleton] at hl
      simp only [hmod] at h
      rw [if_neg (by omega), if_neg (by omega)] at h
      simp only [Put, hmod, h]
  · unfold PutMany at h
    cases hmod : modifyItems [v] with
    | error e0 =>
      simp only [hmod] at h
      simp only [Prod.mk.injEq, Except.error.injEq] at h
      obtain ⟨he, hn⟩ := h
      subst he
      subst hn
      simp only [Put, hmod]
    | ok mis =>
      have hl := modifyItems_ok_length [v] mis hmod
      simp only [List.length_singleton] at hl
      simp only [hmod] at h
      rw [if_neg (by omega), if_neg (by omega)] at h
      simp only [Put, hmod, h]


/-- Witness for C6 at the concrete item `\x7b"name":"a"\x7d`: the processed
key comes back on success, the transport error propagates on failure. -/
theorem c6_put_single_witness :
    Put trPutGood (some (JVal.obj [("name", JVal.str "a")])) = (.ok "abc123", 1) ∧
    Put trPutBoom (some (JVal.obj [("name", JVal.str "a")])) =
      (.error (.transport "boom"), 1) := by
  exact ⟨(c6_put_single trPutGood).2.1 _ "abc123" [] 1 rfl,
    (c6_put_single trPutBoom).2.2 _ (.transport "boom") 1 rfl⟩

/-! ## C7: one bad element aborts the whole normalization -/

/-- C7 counterexample: a JSON null element is not an object, yet
`modifyItems` succeeds on it (null unmarshals into a nil map without error),
so "any non-object element makes the whole call fail" is false as stated. -/
theorem c7_counterexample :
    JVal.isObj JVal.null = false ∧
    modifyItems [JVal.null] = .ok [([] : baseItem)] := ⟨rfl, rfl⟩

/-- C7 (amended): if any element of the input list fails normalization — it
is neither a JSON object nor JSON null, or it is an object with a non-string
`key` — then `modifyItems` returns an error; the `Except` result carries no
item list in that case (the Go function returns a nil slice alongside the
error), so no partial list of normalized items is produced. -/
theorem c7_no_partial_results (items : List JVal)
    (h : ∃ v ∈ items, normalizes v = false) :
    ∃ e, modifyItems items = .error e := by
  obtain ⟨v, hv, hfail⟩ := h
  unfold modifyItems
  cases h1 : items.mapM jsonToBaseItem with
  | error e => exact ⟨e, by simp only [h1, except_bind_err]⟩
  | ok bis =>
    obtain ⟨b, hbmem, hbeq⟩ := mapM_ok_forall jsonToBaseItem items bis h1 v hv
    cases v with
    | null => cases hfail
    | bool x => cases hbeq
    | num x => cases hbeq
    | str x => cases hbeq
    | arr xs => cases hbeq
    | obj fs =>
      have hbfs : fs = b :=
        Except.ok.inj (show Except.ok fs = Except.ok b from hbeq)
      subst hbfs
      have hbad : removeEmptyKey fs = .error (.badItem "Key is not a string") := by
        simp only [normalizes] at hfail
        unfold removeEmptyKey
        cases hk : baseItem.lookup fs "key" with
        | none => simp [hk] at hfail
        | some kv =>
          simp only [hk] at hfail
          cases kv with
          | str st => simp at hfail
          | null => rfl
          | bool x => rfl
          | num x => rfl
          | arr xs => rfl
          | obj fs2 => rfl
      cases h2 : bis.mapM removeEmptyKey with
      | error e =>
        refine ⟨e, ?_⟩
        simp only [h1, except_bind_ok]
        exact h2
      | ok res =>
        obtain ⟨r, _, hr⟩ := mapM_ok_forall removeEmptyKey bis res h2 fs hbmem
        rw [hbad] at hr
        cases hr

/-- Witness for C7 at the concrete list `[1]`: a numeric element makes the
whole call fail. -/
theorem c7_no_partial_results_witness :
    ∃ e, modifyItems [JVal.num 1] = Except.error e :=
  c7_no_partial_results [JVal.num 1] ⟨JVal.num 1, List.mem_cons_self _ _, rfl⟩

/-! ## C5: the returned cursor versus the paging last-key -/

/-- C5 counterexample: when the service reports a present but empty
last-key, `Fetch` returns the empty cursor even though the last-key field is
not absent, so "empty exactly when absent" fails in the right-to-left
direction. -/
theorem c5_cursor_counterexample :
    (Fetch trEmptyLast [] 0).1 = .ok ([], "") ∧
    respEmptyLast.paging = some { size := 0, last := some "" } ∧
    (some "" : Option String) ≠ none := by
  refine ⟨rfl, rfl, by simp⟩

/-- C5 (amended): for a transport-successful `Fetch` whose response carries
a paging object, the returned cursor is the paging last-key when present and
the empty string otherwise; hence the cursor is empty exactly when the
last-key is absent or is itself the empty string. -/
theorem c5_cursor_amended (tr : FetchTransport) (q : Query) (l : Int)
    (res : fetchResponse) (p : paging)
    (htr : tr (fetchReqOf q l) = .ok res)
    (hp : res.paging = some p) :
    (Fetch tr q l).1 = .ok (res.items, p.last.getD "") ∧
    (p.last.getD "" = "" ↔ p.last = none ∨ p.last = some "") := by
  obtain ⟨sz, lst⟩ := p
  rw [fetchReqOf] at htr
  constructor
  · unfold Fetch
    simp only [htr]
    unfold fetchDecode
    rw [hp]
    cases lst <;> rfl
  · cases lst with
    | none => simp
    | some s => simp

/-- Witness for C5 (amended) at a transport reporting an absent last-key:
the cursor comes back empty. -/
theorem c5_cursor_amended_witness :
    (Fetch trWithPaging [] 0).1 =
      .ok ([JVal.obj [("key", JVal.str "x")]], (none : Option String).getD "") ∧
    ((none : Option String).getD "" = "" ↔
      (none : Option String) = none ∨ (none : Option String) = some "") :=
  c5_cursor_amended trWithPaging [] 0 _ { size := 1, last := none } rfl rfl

/-! ## C9: Fetch panics on a response without a paging object -/

/-- C9: a transport-successful `Fetch` whose response decodes without a
paging object dereferences the nil paging pointer and panics instead of
returning an error or an empty cursor; when the response does carry a paging
object, the panic branch is unreachable. -/
theorem c9_fetch_nil_paging (tr : FetchTransport) (q : Query) (l : Int) :
    (∀ res, tr (fetchReqOf q l) = .ok res →
      res.paging = none →
      (Fetch tr q l).1 = .error (.panicked
        "runtime error: invalid memory address or nil pointer dereference")) ∧
    (∀ res p, tr (fetchReqOf q l) = .ok res →
      res.paging = some p →
      isPanicOutcome (Fetch tr q l).1 = false) := by
  constructor
  · intro res htr hp
    rw [fetchReqOf] at htr
    unfold Fetch
    simp only [htr]
    unfold fetchDecode
    rw [hp]
  · intro res p htr hp
    rw [fetchReqOf] at htr
    obtain ⟨sz, lst⟩ := p
    unfold Fetch
    simp only [htr]
    unfold fetchDecode
    rw [hp]
    cases lst <;> rfl

/-- Witness for C9: the concrete no-paging transport panics, the concrete
with-paging transport does not. -/
theorem c9_fetch_nil_paging_witness :
    (Fetch trNoPaging [] 10).1 = .error (.panicked
      "runtime error: invalid memory address or nil pointer dereference") ∧
    isPanicOutcome (Fetch trWithPaging [] 10).1 = false :=
  ⟨(c9_fetch_nil_paging trNoPaging [] 10).1 _ rfl rfl,
   (c9_fetch_nil_paging trWithPaging [] 10).2 _ { size := 1, last := none } rfl rfl⟩

/-! ## C10: Put panics on degenerate processed partitions -/

/-- When every item in the list carries a string `key`, key extraction
succeeds with one key per item. -/
theorem extractKeys_all_string (l : List baseItem)
    (h : ∀ bi ∈ l, hasStringKey bi = true) :
    ∃ ks, extractKeys l = some ks ∧ ks.length = l.length := by
  induction l with
  | nil => exact ⟨[], rfl, rfl⟩
  | cons bi rest ih =>
    have hbi := h bi (List.mem_cons_self _ _)
    obtain ⟨ks, hks, hlen⟩ := ih (fun x hx => h x (List.mem_cons_of_mem _ hx))
    unfold hasStringKey at hbi
    cases hk : bi.lookup "key" with
    | none =>
      simp only [hk] at hbi
      exact Bool.noConfusion hbi
    | some v =>
      simp only [hk] at hbi
      cases v with
      | str sv =>
        refine ⟨sv :: ks, ?_, by simp [hlen]⟩
        unfold extractKeys
        rw [hk, hks]
        rfl
      | null => cases hbi
      | bool x => cases hbi
      | num x => cases hbi
      | arr xs => cases hbi
      | obj fs => cases hbi

/-- When some item in the list lacks a string `key`, key extraction hits the
failed type assertion. -/
theorem extractKeys_bad (l : List baseItem)
    (h : ∃ bi ∈ l, hasStringKey bi = false) :
    extractKeys l = none := by
  induction l with
  | nil => obtain ⟨bi, hm, _⟩ := h; cases hm
  | cons bi rest ih =>
    obtain ⟨b2, hm, hb2⟩ := h
    unfold extractKeys
    cases hm with
    | head =>
      unfold hasStringKey at hb2
      cases hk : bi.lookup "key" with
      | none => rfl
      | some v =>
        simp only [hk] at hb2
        cases v with
        | str sv => exact Bool.noConfusion hb2
        | null => rfl
        | bool x => rfl
        | num x => rfl
        | arr xs => rfl
        | obj fs => rfl
    | tail _ hmem =>
      have hrest := ih ⟨b2, hmem, hb2⟩
      cases hk : bi.lookup "key" with
      | none => rfl
      | some v =>
        cases v with
        | str sv => rw [hrest]; rfl
        | null => rfl
        | bool x => rfl
        | num x => rfl
        | arr xs => rfl
        | obj fs => rfl

/-- C10 counterexample: the claimed precondition "the processed partition
contains at least one item with a string key" holds of `respMixedKeys`
(its first processed item has the string key `"a"`), yet `Put` still panics
on the second item's numeric key, so the claimed precondition does not make
the panic branches unreachable. -/
theorem c10_put_panic_counterexample :
    hasStringKey [("key", JVal.str "a")] = true ∧
    [("key", JVal.str "a")] ∈ procItems respMixedKeys ∧
    (Put trMixedKeys (some (JVal.obj [("name", JVal.str "x")]))).1 =
      .error (.panicked "interface conversion: interface \x7b\x7d is not string") := by
  exact ⟨rfl, List.mem_cons_self _ _, rfl⟩

/-- C10 (amended): for a transport-successful `Put`, an empty processed
partition makes `Put` panic with an out-of-range index, and a processed item
whose `key` is not a string makes it panic on the unchecked type assertion;
when the processed partition is non-empty and every processed item carries a
string key, the panic branches are unreachable. -/
theorem c10_put_panic_amended (tr : PutTransport) (v : JVal) :
    (∀ mis resp, modifyItems [v] = .ok mis → tr mis = .ok resp →
      procItems resp = [] →
      (Put tr (some v)).1 =
        .error (.panicked "runtime error: index out of range [0]")) ∧
    (∀ mis resp, modifyItems [v] = .ok mis → tr mis = .ok resp →
      (∃ bi ∈ procItems resp, hasStringKey bi = false) →
      (Put tr (some v)).1 =
        .error (.panicked "interface conversion: interface \x7b\x7d is not string")) ∧
    (∀ mis resp, modifyItems [v] = .ok mis → tr mis = .ok resp →
      procItems resp ≠ [] →
      (∀ bi ∈ procItems resp, hasStringKey bi = true) →
      isPanicOutcome (Put tr (some v)).1 = false) := by
  refine ⟨fun mis resp hmod htr hproc => ?_,
    fun mis resp hmod htr hbad => ?_,
    fun mis resp hmod htr hne hall => ?_⟩
  · have hput : put tr mis = (.ok [], 1) := by
      unfold put
      simp only [htr, hproc]
      rfl
    simp only [Put, hmod, hput]
  · have hput : put tr mis =
        (.error (.panicked "interface conversion: interface \x7b\x7d is not string"), 1) := by
      unfold put
      simp only [htr, extractKeys_bad (procItems resp) hbad]
    simp only [Put, hmod, hput]
  · obtain ⟨ks, hks, hlen⟩ := extractKeys_all_string (procItems resp) hall
    have hput : put tr mis = (.ok ks, 1) := by
      unfold put
      simp only [htr, hks]
    cases ks with
    | nil =>
      exfalso
      apply hne
      cases hpe : procItems resp with
      | nil => rfl
      | cons x xs => rw [hpe] at hlen; cases hlen
    | cons k ks' =>
      simp only [Put, hmod, hput]
      rfl

/-- Witness for C10 (amended) at concrete transports: the empty processed
partition panics on indexing, the mixed-key partition panics on the type
assertion, and the well-formed partition does not panic. -/
theorem c10_put_panic_amended_witness :
    (Put trEmptyProc (some (JVal.obj [("name", JVal.str "x")]))).1 =
      .error (.panicked "runtime error: index out of range [0]") ∧
    (Put trMixedKeys (some (JVal.obj [("name", JVal.str "y")]))).1 =
      .error (.panicked "interface conversion: interface \x7b\x7d is not string") ∧
    isPanicOutcome (Put trPutGood (some (JVal.obj [("name", JVal.str "a")]))).1 = false := by
  refine ⟨?_, ?_, ?_⟩
  · exact (c10_put_panic_amended trEmptyProc _).1 _ _ rfl rfl rfl
  · exact (c10_put_panic_amended trMixedKeys _).2.1 _ _ rfl rfl
      ⟨[("key", JVal.num 1)], List.mem_cons_of_mem _ (List.mem_cons_self _ _), rfl⟩
  · exact (c10_put_panic_amended trPutGood _).2.2 _ _ rfl rfl (by simp [procItems, trPutGood])
      (by intro bi hbi
          simp only [procItems, trPutGood] at hbi
          rw [List.mem_singleton.mp hbi]
          rfl)

/-! ## C4: the cursor-based pagination scenario -/

/-- C4: against the 15-item model collection, `Fetch` with a nil query and
limit 10 issues one request, returns the first 10 items and the non-empty
cursor `"k10"`; the follow-up call carrying that cursor in the wire
request's `last` field issues one request and returns the remaining 5 items
with an empty cursor, so repeating the call until the cursor is empty
retrieves the full result set. -/
theorem c4_pagination_scenario :
    Fetch baseTr15 [] 10 =
      (.ok ((stored15.take 10).map Prod.snd, "k10"), 1) ∧
    ("k10" : String) ≠ "" ∧
    fetchWithLast baseTr15 [] 10 "k10" =
      (.ok ((stored15.drop 10).map Prod.snd, ""), 1) ∧
    (stored15.take 10).map Prod.snd ++ (stored15.drop 10).map Prod.snd =
      stored15.map Prod.snd := by
  refine ⟨rfl, by decide, rfl, ?_⟩
  rw [← List.map_append, List.take_append_drop]
